import Mathlib

/-!
# Verification of the Managua manager-agent orchestration core

A shallow embedding, in Lean, of the orchestration pipeline implemented in
`convex/functions/agents/manager.ts` and the record-store functions it calls
(`convex/functions/memories.ts`, the messages and conversations functions,
and `codeChangeRequests/create`), together with theorems settling the
specification claims about that pipeline.

Conventions of the embedding:
* JavaScript strings are Lean `String`s; `s.toLowerCase()` is `String.toLower`
  and `s.includes(p)` is infix search on the underlying character lists.
* JavaScript numbers that hold the rule importances (0.8, 0.9, ...) are
  modelled as rationals `ℚ`; these constants and their comparisons are exact.
* The JS idiom `x || d` applied to an optional numeric argument (where `0`
  is falsy) is `jsOrNat` / `jsOrRat`.
* The Convex database is a record of append-only lists; a document id is the
  document's index in its table's list.
* External collaborators (the model backend and the PARA context provider)
  are inputs of the turn function: the backend is a map from the attempt
  number to that attempt's outcome, mirroring the retry loop's repeated
  invocation of the same closure against a changing outside world.
* The failure of an attempt / of the whole turn is an `Except` error value.
-/

namespace Managua

/-- JS `message.toLowerCase()`: lower-case character by character (all the
keywords the pipeline matches are ASCII). -/
def strLower (s : String) : String :=
  ⟨s.data.map Char.toLower⟩

/-- JS `haystack.includes(needle)`: `needle` occurs as a contiguous substring
of `haystack` (some tail of the haystack starts with the needle). -/
def includesSub (haystack needle : String) : Bool :=
  haystack.toList.tails.any (fun t => needle.toList.isPrefixOf t)

/-- JS `x || d` for an optional number argument whose useful values are
naturals; `0` is falsy, so both `undefined` and `0` yield the default. -/
def jsOrNat (x : Option Nat) (d : Nat) : Nat :=
  match x with
  | none => d
  | some n => if n = 0 then d else n

/-- JS `x || d` for an optional number argument modelled as a rational;
`0` is falsy, so both `undefined` and `0` yield the default. -/
def jsOrRat (x : Option ℚ) (d : ℚ) : ℚ :=
  match x with
  | none => d
  | some q => if q = 0 then d else q

/-! ## Intent classifier (`analyzeIntent` in manager.ts) -/

/-- Result of intent analysis. The source's return type annotation (and its
only call site, `intent.requiresPARAContext` in `chat`) names the boolean
field `requiresPARAContext`; the function body's object literal abbreviates
it, a slip the declared contract resolves. -/
structure IntentResult where
  requiresPARAContext : Bool
  intent : String
deriving Repr, DecidableEq

/-- The fixed keyword set of `analyzeIntent`, in source order. -/
def paraKeywords : List String :=
  ["project", "area", "resource", "task", "goal", "what", "show", "list"]

/-- `analyzeIntent` from manager.ts: lower-case the message and test the
fixed keyword substrings; any hit routes to `"query"` with PARA context
required, otherwise `"general"`. (The `history` and `memories` parameters of
the source are unused by its body and omitted here.) -/
def analyzeIntent (message : String) : IntentResult :=
  let lowerMessage := strLower message
  let requiresPARA := paraKeywords.any (fun k => includesSub lowerMessage k)
  { requiresPARAContext := requiresPARA
    intent := if requiresPARA then "query" else "general" }

/-! ## Code-change detector (`detectCodeChangeRequest` in manager.ts) -/

/-- Result record of `detectCodeChangeRequest`; the optional fields are
present exactly when `detected` is true, as in the source. -/
structure CodeChangeCheck where
  detected : Bool
  request : Option String
  priority : Option String
  category : Option String
deriving Repr, DecidableEq

/-- The code-change keyword list of `detectCodeChangeRequest`, in source
order. -/
def codeChangeKeywords : List String :=
  ["add feature", "implement", "create functionality", "build", "integrate",
   "connect to", "make it", "can you", "update to", "change behavior",
   "fix code", "new capability"]

/-- `detectCodeChangeRequest` from manager.ts. Detection is a substring test
against the keyword list on the lower-cased message; on detection the
category defaults to `"feature"` overridden by the first matching bucket
(bugfix, then refactor, then integration), and the priority defaults to
`"medium"` overridden by urgency / deferral words. (The unused `history`
parameter of the source is omitted.) -/
def detectCodeChangeRequest (message : String) : CodeChangeCheck :=
  let lowerMessage := strLower message
  let detected := codeChangeKeywords.any (fun k => includesSub lowerMessage k)
  if !detected then
    { detected := false, request := none, priority := none, category := none }
  else
    let category :=
      if includesSub lowerMessage "fix" || includesSub lowerMessage "broken" then
        "bugfix"
      else if includesSub lowerMessage "refactor" || includesSub lowerMessage "clean" then
        "refactor"
      else if includesSub lowerMessage "integrate" || includesSub lowerMessage "connect" then
        "integration"
      else "feature"
    let priority :=
      if includesSub lowerMessage "urgent" || includesSub lowerMessage "important" then
        "high"
      else if includesSub lowerMessage "eventually" || includesSub lowerMessage "someday" then
        "low"
      else "medium"
    { detected := true, request := some message,
      priority := some priority, category := some category }

/-! ## Memory extractor (`extractMemories` in manager.ts) -/

/-- A transient extracted-memory candidate: `{type, content, importance}`. -/
structure MemoryCandidate where
  type : String
  content : String
  importance : ℚ
deriving Repr, DecidableEq

/-- `extractMemories` from manager.ts: three independent rules over the
lower-cased user message, each pushing one candidate whose content is the
user message verbatim; the assistant response and PARA context are accepted
but unused by the rules. -/
def extractMemories (userMessage assistantResponse : String) : List MemoryCandidate :=
  let lowerMessage := strLower userMessage
  (if includesSub lowerMessage "i prefer" || includesSub lowerMessage "i like" then
     [{ type := "preference", content := userMessage, importance := 8/10 }]
   else []) ++
  (if includesSub lowerMessage "my goal" || includesSub lowerMessage "i want to" then
     [{ type := "goal", content := userMessage, importance := 9/10 }]
   else []) ++
  (if includesSub lowerMessage "i am" || includesSub lowerMessage "i have"
      || includesSub lowerMessage "i work" then
     [{ type := "fact", content := userMessage, importance := 7/10 }]
   else [])

/-! ## Fault-tolerant executor (`executeWithFaultTolerance` in manager.ts) -/

/-- Outcome of a run of the retry loop: the value returned / error thrown,
the number of the attempt the loop stopped at, and the list of backoff
delays (in seconds) awaited between attempts, in order. -/
structure ExecOutcome (E T : Type) where
  result : Except E T
  attempts : Nat
  waits : List Nat
deriving Repr

/-- The `for (let attempt = 1; attempt <= maxRetries; attempt++)` loop body
of `executeWithFaultTolerance`: try the operation; return on success; on
failure record the error and, when more attempts remain, wait
`2^attempt` seconds (`Math.pow(2, attempt) * 1000` ms) before retrying.
After the last failed attempt the recorded last error is thrown. The
operation is indexed by the attempt number: attempt `n` observes outcome
`op n` of the outside world. `retriesLeft` counts the attempts still
allowed after the current one (`maxRetries - attempt` at entry), so the
source's `attempt < maxRetries` guard is `0 < retriesLeft`. -/
def attemptLoop (op : Nat → Except E T) (attempt : Nat) :
    (retriesLeft : Nat) → ExecOutcome E T
  | 0 =>
    match op attempt with
    | .ok v => { result := .ok v, attempts := attempt, waits := [] }
    | .error e => { result := .error e, attempts := attempt, waits := [] }
  | r + 1 =>
    match op attempt with
    | .ok v => { result := .ok v, attempts := attempt, waits := [] }
    | .error _ =>
      let rest := attemptLoop op (attempt + 1) r
      { rest with waits := 2 ^ attempt :: rest.waits }

/-- `executeWithFaultTolerance` from manager.ts: `maxRetries = 3`, attempts
counted from 1, so the first attempt enters the loop with 2 retries left. -/
def executeWithFaultTolerance (op : Nat → Except E T) : ExecOutcome E T :=
  attemptLoop op 1 2

/-! ## The record store

Each Convex table is an append-only list; a document's id is its index in
its table's list. `Date.now()` is an explicit `now : Nat` argument. -/

/-- A row of the `conversations` table (`conversations/create`). -/
structure Conversation where
  userId : Nat
  platform : String
  platformChannelId : String
  startedAt : Nat
  lastActivityAt : Nat
  status : String
deriving Repr, DecidableEq

/-- The optional `metadata` object of a message (`messages/store` args). -/
structure MessageMetadata where
  agentType : Option String := none
  mcpToolUsed : Option String := none
  paraContextUsed : Option Bool := none
  memoryExtracted : Option Bool := none
deriving Repr, DecidableEq

/-- A row of the `messages` table (`messages/store`). -/
structure Message where
  conversationId : Nat
  role : String
  content : String
  metadata : MessageMetadata
  createdAt : Nat
deriving Repr, DecidableEq

/-- A row of the `memories` table (`memories/store`). -/
structure Memory where
  userId : Nat
  type : String
  content : String
  paraContext : Option Nat
  importance : ℚ
  accessedCount : Nat
  lastAccessed : Nat
  createdAt : Nat
deriving Repr, DecidableEq

/-- A row of the `codeChangeRequests` table (`codeChangeRequests/create`);
`context` is the serialized history slice string the caller passes. -/
structure CodeChangeRequest where
  userId : Nat
  request : String
  context : String
  priority : String
  category : String
  status : String
  createdAt : Nat
deriving Repr, DecidableEq

/-- The database: one append-only list per table. -/
structure DB where
  conversations : List Conversation
  messages : List Message
  memories : List Memory
  codeChangeRequests : List CodeChangeRequest
deriving Repr, DecidableEq

/-- The empty database. -/
def DB.empty : DB :=
  { conversations := [], messages := [], memories := [], codeChangeRequests := [] }

/-- `conversations/create`: insert an active conversation stamped `now` and
return its id. -/
def conversationsCreate (db : DB) (now userId : Nat)
    (platform platformChannelId : String) : DB × Nat :=
  ({ db with conversations := db.conversations ++
      [{ userId := userId, platform := platform,
         platformChannelId := platformChannelId, startedAt := now,
         lastActivityAt := now, status := "active" }] },
   db.conversations.length)

/-- `conversations/updateActivity`: patch `lastActivityAt` of the given
conversation to `now`. -/
def conversationsUpdateActivity (db : DB) (now conversationId : Nat) : DB :=
  { db with conversations := db.conversations.mapIdx (fun i c =>
      if i = conversationId then { c with lastActivityAt := now } else c) }

/-- `messages/store`: insert a message (`metadata || {}`) and return its id. -/
def messagesStore (db : DB) (now conversationId : Nat) (role content : String)
    (metadata : Option MessageMetadata) : DB × Nat :=
  ({ db with messages := db.messages ++
      [{ conversationId := conversationId, role := role, content := content,
         metadata := metadata.getD {}, createdAt := now }] },
   db.messages.length)

/-- `messages/listByConversation`: the conversation's messages through the
`by_conversation` index in ascending creation order, then
`take (limit || 50)`. Ascending-then-take keeps the FIRST (oldest)
`limit` messages. -/
def listByConversation (db : DB) (conversationId : Nat) (limit : Option Nat) :
    List Message :=
  (db.messages.filter (fun m => m.conversationId = conversationId)).take
    (jsOrNat limit 50)

/-- `memories/store`: insert a memory with `importance: args.importance || 0.5`
(so an absent or zero importance argument stores `0.5`), `accessedCount: 0`,
both timestamps `now`; returns the new id. -/
def memoriesStore (db : DB) (now userId : Nat) (type content : String)
    (paraContext : Option Nat) (importance : Option ℚ) : DB × Nat :=
  ({ db with memories := db.memories ++
      [{ userId := userId, type := type, content := content,
         paraContext := paraContext, importance := jsOrRat importance (1/2),
         accessedCount := 0, lastAccessed := now, createdAt := now }] },
   db.memories.length)

/-- Bump the access statistics of one memory, as `ctx.db.patch` does in
`memories/searchByUser`. -/
def bumpMemory (now : Nat) (m : Memory) : Memory :=
  { m with accessedCount := m.accessedCount + 1, lastAccessed := now }

/-- Walk the table from index `start`, bumping exactly the ids in `hits`. -/
def patchHitsFrom (now : Nat) (hits : List Nat) : Nat → List Memory → List Memory
  | _, [] => []
  | i, m :: ms =>
    (if i ∈ hits then bumpMemory now m else m) :: patchHitsFrom now hits (i + 1) ms

/-- Apply the per-result `ctx.db.patch` of `memories/searchByUser` to the
table: memory `i` is bumped exactly when `i` is among the returned ids. -/
def patchHits (now : Nat) (hits : List Nat) (mems : List Memory) : List Memory :=
  patchHitsFrom now hits 0 mems

/-- `memories/searchByUser`: the user's memories through the `by_user` index
in descending creation order, `take (limit || 20)`; each returned memory is
then patched with `accessedCount + 1` and `lastAccessed = now`. Returns the
fetched documents (with their pre-patch field values, as the source returns
the array it read) paired with their ids, and the patched database. -/
def searchByUser (db : DB) (now userId : Nat) (limit : Option Nat) :
    List (Nat × Memory) × DB :=
  let results := ((db.memories.enum.filter (fun p => p.2.userId = userId)).reverse).take
    (jsOrNat limit 20)
  (results,
   { db with memories := patchHits now (results.map (·.1)) db.memories })

/-- `codeChangeRequests/create` (from the codeChangeRequests functions file,
whose text is concatenated into `src/convex/functions/mcp/diagnostic.ts`):
insert one request with the given string fields verbatim, `status:
"pending"` and `createdAt: now`, and return its id. -/
def codeChangeRequestsCreate (db : DB) (now userId : Nat) (request : String)
    (context : String) (priority category : String) : DB × Nat :=
  ({ db with codeChangeRequests := db.codeChangeRequests ++
      [{ userId := userId, request := request, context := context,
         priority := priority, category := category, status := "pending",
         createdAt := now }] },
   db.codeChangeRequests.length)

/-! ## The orchestrator (`chat` in manager.ts) -/

/-- JS `list.slice(-n)`: the last `n` elements (the whole list when shorter). -/
def sliceLast (n : Nat) (l : List α) : List α :=
  l.drop (l.length - n)

/-- `JSON.stringify` applied to a message list: a deterministic rendering of
the messages into one string (the exact JSON byte format is a runtime
detail no behaviour depends on; the embedding uses the derived rendering). -/
def jsonStringify (ms : List Message) : String :=
  toString (repr ms)

/-- The argument record of the `generateResponse` call made inside the
fault-tolerance wrapper: the current message, the fetched history projected
to role/content pairs, the fetched memories projected to their contents, and
the PARA context, exactly as `chat` builds it. -/
structure GenInput where
  userMessage : String
  history : List (String × String)
  memories : List String
  paraContext : Option String
deriving Repr, DecidableEq

/-- Observable external effects of one turn, in the order the orchestrator
issues them. -/
inductive Event where
  | createConversation
  | storeMessage (role : String)
  | queryHistory
  | queryMemories
  | gatherContext
  | modelCall (attempt : Nat)
  | createCodeChangeRequest
  | storeMemory
  | updateActivity
deriving Repr, DecidableEq

/-- The outside world of a turn: the clock, the PARA context provider
(`context/para/gather`), and the model backend. The backend is indexed by
the composed generation input and by the attempt number — attempt `n` of the
retry loop observes outcome `modelResponse gin n`. -/
structure ChatEnv where
  now : Nat
  paraGather : String → Nat → Option String
  modelResponse : GenInput → Nat → Except String String

/-- The argument record of the `chat` action. -/
structure ChatArgs where
  message : String
  userId : Nat
  conversationId : Option Nat
deriving Repr, DecidableEq

/-- The discriminated result of a completed turn. -/
inductive ChatResult where
  | codeChangeRequest (message : String) (requestId : String)
  | response (content : String) (memoriesExtracted : Nat)
deriving Repr, DecidableEq

/-- What one run of `chat` produces: the returned value (or the error that
escaped), the database after the turn, and the trace of external effects. -/
structure TurnOutcome where
  result : Except String ChatResult
  db : DB
  events : List Event
deriving Repr

/-- The `chat` action of manager.ts, step for step:

1. resolve or create the conversation, then store the user message;
2. fetch the last-20 history (`messages/listByConversation`, limit 20);
3. fetch up to 10 memories (`memories/searchByUser`, limit 10), which bumps
   their access statistics;
4. classify intent (`analyzeIntent`);
5. gather PARA context when the classifier requires it;
6. run the code-change detector; on detection persist one Code Change
   Request whose context is the last 3 fetched history messages and return
   the `code_change_request` result;
7. otherwise run the model backend under `executeWithFaultTolerance`; an
   exhausted retry loop rethrows the last error, ending the turn;
8. on success extract memories from the exchange and store each candidate;
9. store the assistant message with its metadata and update the
   conversation's activity timestamp, returning the `response` result. -/
def chat (env : ChatEnv) (db : DB) (args : ChatArgs) : TurnOutcome :=
  let step1 :=
    match args.conversationId with
    | some c => (c, db, ([] : List Event))
    | none =>
      let created := conversationsCreate db env.now args.userId "cli"
        ("cli-" ++ toString env.now)
      (created.2, created.1, [Event.createConversation])
  let convId := step1.1
  let db1 := (messagesStore step1.2.1 env.now convId "user" args.message none).1
  let history := listByConversation db1 convId (some 20)
  let fetched := searchByUser db1 env.now args.userId (some 10)
  let memories := fetched.1
  let db2 := fetched.2
  let intent := analyzeIntent args.message
  let paraContext :=
    if intent.requiresPARAContext then env.paraGather args.message args.userId
    else none
  let ev1 := step1.2.2 ++ [Event.storeMessage "user", Event.queryHistory,
      Event.queryMemories] ++
    (if intent.requiresPARAContext then [Event.gatherContext] else [])
  let check := detectCodeChangeRequest args.message
  if check.detected then
    let db3 := (codeChangeRequestsCreate db2 env.now args.userId
      (check.request.getD "") (jsonStringify (sliceLast 3 history))
      (check.priority.getD "medium") (check.category.getD "feature")).1
    { result := .ok (.codeChangeRequest
        ("I've captured your request for: \x22" ++ check.request.getD "" ++
         "\x22. This has been queued for future implementation.")
        (check.request.getD ""))
      db := db3
      events := ev1 ++ [Event.createCodeChangeRequest] }
  else
    let gin : GenInput :=
      { userMessage := args.message
        history := history.map (fun m => (m.role, m.content))
        memories := (memories.map (·.2)).map (·.content)
        paraContext := paraContext }
    let exec := executeWithFaultTolerance (env.modelResponse gin)
    let mcEvents := (List.range exec.attempts).map (fun k => Event.modelCall (k + 1))
    match exec.result with
    | .error e => { result := .error e, db := db2, events := ev1 ++ mcEvents }
    | .ok content =>
      let extracted := extractMemories args.message content
      let db3 := extracted.foldl (fun d c =>
        (memoriesStore d env.now args.userId c.type c.content none
          (some c.importance)).1) db2
      let db4 := (messagesStore db3 env.now convId "assistant" content
        (some { agentType := some "manager",
                paraContextUsed := some paraContext.isSome,
                memoryExtracted := some (decide (0 < extracted.length)) })).1
      let db5 := conversationsUpdateActivity db4 env.now convId
      { result := .ok (.response content extracted.length)
        db := db5
        events := ev1 ++ mcEvents ++ extracted.map (fun _ => Event.storeMemory) ++
          [Event.storeMessage "assistant", Event.updateActivity] }

/-! ## Derived predicates and concrete fixtures -/

/-- Every memory of the list has `importance ∈ [0,1]`. -/
def memsInRange (ms : List Memory) : Prop :=
  ∀ m ∈ ms, 0 ≤ m.importance ∧ m.importance ≤ 1

/-- The §3 importance invariant on a database: every persisted memory has
`importance ∈ [0,1]`. -/
def ImportanceInRange (db : DB) : Prop :=
  memsInRange db.memories

/-- The memory record that the orchestrator's extraction loop persists for
one candidate (`memories/store` applied to `{userId, ...memory}`). -/
def candidateRecord (now userId : Nat) (c : MemoryCandidate) : Memory :=
  { userId := userId, type := c.type, content := c.content, paraContext := none,
    importance := jsOrRat (some c.importance) (1/2), accessedCount := 0,
    lastAccessed := now, createdAt := now }

/-- A backend that fails on attempts 1 and 2 and succeeds on attempt 3. -/
def opFailTwice : Nat → Except String String :=
  fun n => if n < 3 then .error ("boom " ++ toString n) else .ok "done"

/-- An environment whose PARA provider returns context and whose backend
answers on the first attempt. -/
def envOk : ChatEnv :=
  { now := 100
    paraGather := fun _ _ => some "para-context"
    modelResponse := fun _ _ => .ok "Sure, happy to help." }

/-- An environment whose backend fails on every attempt. -/
def envDown : ChatEnv :=
  { now := 100
    paraGather := fun _ _ => some "para-context"
    modelResponse := fun _ n => .error ("backend unavailable " ++ toString n) }

/-- Three messages of one conversation, in creation order. -/
def msgOld : Message :=
  { conversationId := 0, role := "user", content := "oldest", metadata := {},
    createdAt := 1 }

def msgMid : Message :=
  { conversationId := 0, role := "assistant", content := "middle", metadata := {},
    createdAt := 2 }

def msgNew : Message :=
  { conversationId := 0, role := "user", content := "newest", metadata := {},
    createdAt := 3 }

/-- A database whose conversation 0 holds `msgOld`, `msgMid`, `msgNew`. -/
def dbThreeMsgs : DB :=
  { conversations := [{ userId := 7, platform := "cli", platformChannelId := "c0",
                        startedAt := 1, lastActivityAt := 3, status := "active" }]
    messages := [msgOld, msgMid, msgNew]
    memories := []
    codeChangeRequests := [] }

/-- A goal memory of user 7 appended with importance `0.9`, never accessed. -/
def memGoal : Memory :=
  { userId := 7, type := "goal", content := "learn lean", paraContext := none,
    importance := 9/10, accessedCount := 0, lastAccessed := 5, createdAt := 5 }

/-- A database holding only `memGoal`. -/
def dbOneGoal : DB :=
  { conversations := [], messages := [], memories := [memGoal],
    codeChangeRequests := [] }

/-- A turn whose utterance asks for a new feature (matches `"can you"`). -/
def argsFeature : ChatArgs :=
  { message := "Can you add a feature that sends me daily summaries?",
    userId := 7, conversationId := none }

/-- A turn whose utterance matches both a code-change keyword
(`"implement"`) and a PARA keyword (`"task"`). -/
def argsImplTask : ChatArgs :=
  { message := "implement a task", userId := 7, conversationId := none }

/-- A turn whose utterance matches no keyword of any rule. -/
def argsPlain : ChatArgs :=
  { message := "hi there", userId := 7, conversationId := none }

/-- A turn whose utterance matches the preference rule. -/
def argsPrefer : ChatArgs :=
  { message := "i prefer working in the morning", userId := 7,
    conversationId := none }

/-! ## Lemmas about the retry loop -/

/-- The loop never counts past the attempts it is allowed. -/
theorem attemptLoop_attempts_le {E T : Type} (op : Nat → Except E T)
    (attempt retriesLeft : Nat) :
    (attemptLoop op attempt retriesLeft).attempts ≤ attempt + retriesLeft := by
  induction retriesLeft generalizing attempt with
  | zero =>
    cases h : op attempt <;> simp [attemptLoop, h]
  | succ r ih =>
    cases h : op attempt with
    | ok v => simp [attemptLoop, h]
    | error e =>
      have := ih (attempt + 1)
      simp only [attemptLoop, h]
      omega

/-- An immediately successful operation ends the loop at its first attempt
with no waiting. -/
theorem executeWithFaultTolerance_ok1 {E T : Type} {op : Nat → Except E T}
    {v : T} (h1 : op 1 = .ok v) :
    executeWithFaultTolerance op = { result := .ok v, attempts := 1, waits := [] } := by
  simp [executeWithFaultTolerance, attemptLoop, h1]

/-- One failure then success: a single 2-second wait, success returned from
attempt 2. -/
theorem executeWithFaultTolerance_ok2 {E T : Type} {op : Nat → Except E T}
    {e1 : E} {v : T} (h1 : op 1 = .error e1) (h2 : op 2 = .ok v) :
    executeWithFaultTolerance op =
      { result := .ok v, attempts := 2, waits := [2 ^ 1] } := by
  simp [executeWithFaultTolerance, attemptLoop, h1, h2]

/-- Two failures then success: waits of `2^1` and `2^2` seconds, success
returned from attempt 3. -/
theorem executeWithFaultTolerance_ok3 {E T : Type} {op : Nat → Except E T}
    {e1 e2 : E} {v : T} (h1 : op 1 = .error e1) (h2 : op 2 = .error e2)
    (h3 : op 3 = .ok v) :
    executeWithFaultTolerance op =
      { result := .ok v, attempts := 3, waits := [2 ^ 1, 2 ^ 2] } := by
  simp [executeWithFaultTolerance, attemptLoop, h1, h2, h3]

/-- Three failures: the loop stops after attempt 3 and rethrows the last
error. -/
theorem executeWithFaultTolerance_allFail {E T : Type} {op : Nat → Except E T}
    {e1 e2 e3 : E} (h1 : op 1 = .error e1) (h2 : op 2 = .error e2)
    (h3 : op 3 = .error e3) :
    executeWithFaultTolerance op =
      { result := .error e3, attempts := 3, waits := [2 ^ 1, 2 ^ 2] } := by
  simp [executeWithFaultTolerance, attemptLoop, h1, h2, h3]

/-! ## C2: the retry policy of `executeWithFaultTolerance` -/

/-- C2: the fault-tolerant executor makes at most 3 attempts; a first-attempt
success returns at once with no waiting; an operation that fails twice then
succeeds returns the attempt-3 result after waits of exactly `2^1` and `2^2`
seconds (total `2^1 + 2^2`); an operation that always fails stops after
exactly 3 attempts with a failure. -/
theorem executeWithFaultTolerance_policy {E T : Type} (op : Nat → Except E T) :
    (executeWithFaultTolerance op).attempts ≤ 3 ∧
    (∀ v, op 1 = .ok v →
      executeWithFaultTolerance op = { result := .ok v, attempts := 1, waits := [] }) ∧
    (∀ e1 v, op 1 = .error e1 → op 2 = .ok v →
      executeWithFaultTolerance op =
        { result := .ok v, attempts := 2, waits := [2 ^ 1] }) ∧
    (∀ e1 e2 v, op 1 = .error e1 → op 2 = .error e2 → op 3 = .ok v →
      executeWithFaultTolerance op =
          { result := .ok v, attempts := 3, waits := [2 ^ 1, 2 ^ 2] } ∧
        (executeWithFaultTolerance op).waits.sum = 2 ^ 1 + 2 ^ 2) ∧
    (∀ e1 e2 e3, op 1 = .error e1 → op 2 = .error e2 → op 3 = .error e3 →
      executeWithFaultTolerance op =
        { result := .error e3, attempts := 3, waits := [2 ^ 1, 2 ^ 2] }) := by
  refine ⟨attemptLoop_attempts_le op 1 2, ?_, ?_, ?_, ?_⟩
  · intro v h1
    exact executeWithFaultTolerance_ok1 h1
  · intro e1 v h1 h2
    exact executeWithFaultTolerance_ok2 h1 h2
  · intro e1 e2 v h1 h2 h3
    refine ⟨executeWithFaultTolerance_ok3 h1 h2 h3, ?_⟩
    rw [executeWithFaultTolerance_ok3 h1 h2 h3]
    rfl
  · intro e1 e2 e3 h1 h2 h3
    exact executeWithFaultTolerance_allFail h1 h2 h3

/-- C2 witness: the fail-twice-then-succeed scenario at the concrete
operation `opFailTwice`. -/
theorem executeWithFaultTolerance_policy_witness :
    executeWithFaultTolerance opFailTwice =
      { result := .ok "done", attempts := 3, waits := [2 ^ 1, 2 ^ 2] } :=
  ((executeWithFaultTolerance_policy opFailTwice).2.2.2.1 "boom 1" "boom 2" "done"
    rfl rfl rfl).1

/-! ## C6: the intent classifier -/

/-- C6: `analyzeIntent` is a function of the utterance alone; whenever the
lower-cased utterance contains one of the fixed keywords it answers
`requiresPARAContext = true` with label `"query"`, and whenever it contains
none it answers `false` with label `"general"`. -/
theorem analyzeIntent_spec (message : String) :
    ((∃ k ∈ paraKeywords, includesSub (strLower message) k = true) →
      analyzeIntent message = { requiresPARAContext := true, intent := "query" }) ∧
    ((∀ k ∈ paraKeywords, includesSub (strLower message) k = false) →
      analyzeIntent message = { requiresPARAContext := false, intent := "general" }) := by
  constructor
  · intro h
    have hany : paraKeywords.any (fun k => includesSub (strLower message) k) = true :=
      List.any_eq_true.2 h
    simp [analyzeIntent, hany]
  · intro h
    have hany : paraKeywords.any (fun k => includesSub (strLower message) k) = false := by
      rw [Bool.eq_false_iff]
      intro hc
      obtain ⟨k, hk, hik⟩ := List.any_eq_true.1 hc
      rw [h k hk] at hik
      exact Bool.false_ne_true hik
    simp [analyzeIntent, hany]

/-- C6 witness: a keyworded utterance (matches `"what"`) routes to
`"query"`, and a keyword-free utterance routes to `"general"`. -/
theorem analyzeIntent_spec_witness :
    analyzeIntent "Hello! What can you help me with?" =
        { requiresPARAContext := true, intent := "query" } ∧
      analyzeIntent "hi there" =
        { requiresPARAContext := false, intent := "general" } :=
  ⟨(analyzeIntent_spec "Hello! What can you help me with?").1
      ⟨"what", by decide, by decide⟩,
   (analyzeIntent_spec "hi there").2 (by decide)⟩

/-! ## C7: the memory extractor -/

/-- C7: memory extraction depends only on the user utterance (any assistant
response yields the same candidates); each of the three rules fires
independently on the lower-cased utterance and contributes exactly one
candidate — preference at importance 0.8, goal at 0.9, fact at 0.7 — whose
content is the utterance verbatim; the number of candidates is the number of
matching rules, and with no matching rule the result is empty. -/
theorem extractMemories_spec (userMessage assistantResponse : String) :
    (∀ other, extractMemories userMessage other =
      extractMemories userMessage assistantResponse) ∧
    ((includesSub (strLower userMessage) "i prefer" = true ∨
        includesSub (strLower userMessage) "i like" = true) →
      ({ type := "preference", content := userMessage, importance := 8/10 } :
        MemoryCandidate) ∈ extractMemories userMessage assistantResponse) ∧
    ((includesSub (strLower userMessage) "my goal" = true ∨
        includesSub (strLower userMessage) "i want to" = true) →
      ({ type := "goal", content := userMessage, importance := 9/10 } :
        MemoryCandidate) ∈ extractMemories userMessage assistantResponse) ∧
    ((includesSub (strLower userMessage) "i am" = true ∨
        includesSub (strLower userMessage) "i have" = true ∨
        includesSub (strLower userMessage) "i work" = true) →
      ({ type := "fact", content := userMessage, importance := 7/10 } :
        MemoryCandidate) ∈ extractMemories userMessage assistantResponse) ∧
    (extractMemories userMessage assistantResponse).length =
      (includesSub (strLower userMessage) "i prefer" ||
        includesSub (strLower userMessage) "i like").toNat +
      (includesSub (strLower userMessage) "my goal" ||
        includesSub (strLower userMessage) "i want to").toNat +
      (includesSub (strLower userMessage) "i am" ||
        includesSub (strLower userMessage) "i have" ||
        includesSub (strLower userMessage) "i work").toNat ∧
    (∀ c ∈ extractMemories userMessage assistantResponse,
      c.content = userMessage) := by
  refine ⟨fun other => rfl, ?_, ?_, ?_, ?_, ?_⟩ <;>
    simp only [extractMemories] <;>
    cases hp : (includesSub (strLower userMessage) "i prefer" ||
        includesSub (strLower userMessage) "i like") <;>
    cases hg : (includesSub (strLower userMessage) "my goal" ||
        includesSub (strLower userMessage) "i want to") <;>
    cases hf : (includesSub (strLower userMessage) "i am" ||
        includesSub (strLower userMessage) "i have" ||
        includesSub (strLower userMessage) "i work") <;>
    simp_all [Bool.or_eq_false_iff, Bool.or_eq_true_iff]

/-- C7 witness: "I am a developer and I prefer mornings" matches the fact
rule and the preference rule, yielding exactly those two candidates with the
utterance as content. -/
theorem extractMemories_spec_witness :
    ({ type := "preference", content := "I am a developer and I prefer mornings",
       importance := 8/10 } : MemoryCandidate) ∈
        extractMemories "I am a developer and I prefer mornings" "ok" ∧
    ({ type := "fact", content := "I am a developer and I prefer mornings",
       importance := 7/10 } : MemoryCandidate) ∈
        extractMemories "I am a developer and I prefer mornings" "ok" ∧
    (extractMemories "I am a developer and I prefer mornings" "ok").length = 2 := by
  obtain ⟨-, hpref, -, hfact, hlen, -⟩ :=
    extractMemories_spec "I am a developer and I prefer mornings" "ok"
  exact ⟨hpref (Or.inl (by decide)), hfact (Or.inl (by decide)), by rw [hlen]; decide⟩

/-! ## C10: defaulting in `memories/store` -/

/-- C10: a `memories/store` call with the importance argument omitted, and
likewise one with importance `0` (falsy under `||`), persists the memory
with importance `0.5`; no call can persist importance exactly `0`; and every
new memory starts with `accessedCount = 0`. -/
theorem memoriesStore_defaults (db : DB) (now userId : Nat)
    (type content : String) (paraContext : Option Nat) :
    (∀ imp : Option ℚ, imp = none ∨ imp = some 0 →
      ∃ mem, (memoriesStore db now userId type content paraContext imp).1.memories.getLast? =
          some mem ∧ mem.importance = 1/2 ∧ mem.accessedCount = 0) ∧
    (∀ (imp : Option ℚ) (mem : Memory),
      (memoriesStore db now userId type content paraContext imp).1.memories.getLast? =
        some mem →
      mem.importance ≠ 0 ∧ mem.accessedCount = 0) := by
  have hform : ∀ imp : Option ℚ,
      (memoriesStore db now userId type content paraContext imp).1.memories.getLast? =
        some { userId := userId, type := type, content := content,
               paraContext := paraContext, importance := jsOrRat imp (1/2),
               accessedCount := 0, lastAccessed := now, createdAt := now } := by
    intro imp
    simp [memoriesStore]
  constructor
  · rintro imp (rfl | rfl)
    · exact ⟨_, hform none, by norm_num [jsOrRat], rfl⟩
    · exact ⟨_, hform (some 0), by norm_num [jsOrRat], rfl⟩
  · intro imp mem hlast
    rw [hform imp] at hlast
    obtain rfl := (Option.some_inj.mp hlast).symm
    refine ⟨?_, rfl⟩
    show jsOrRat imp (1/2) ≠ 0
    match imp with
    | none => norm_num [jsOrRat]
    | some q =>
      by_cases hq : q = 0
      · norm_num [jsOrRat, hq]
      · simp [jsOrRat, hq]

/-- C10 witness: storing with no importance, and storing with importance 0,
both persist importance `0.5` and a zero access count. -/
theorem memoriesStore_defaults_witness :
    ((memoriesStore DB.empty 3 7 "fact" "x" none none).1.memories.getLast?.map
        (fun m => (m.importance, m.accessedCount)) = some (1/2, 0)) ∧
    ((memoriesStore DB.empty 3 7 "fact" "x" none (some 0)).1.memories.getLast?.map
        (fun m => (m.importance, m.accessedCount)) = some (1/2, 0)) := by
  obtain ⟨hdef, -⟩ := memoriesStore_defaults DB.empty 3 7 "fact" "x" none
  obtain ⟨m1, h1, hi1, hc1⟩ := hdef none (Or.inl rfl)
  obtain ⟨m2, h2, hi2, hc2⟩ := hdef (some 0) (Or.inr rfl)
  constructor
  · rw [h1]
    simp [hi1, hc1]
  · rw [h2]
    simp [hi2, hc2]

/-! ## Lemmas about `patchHits` -/

/-- Patching access statistics never changes the table's length. -/
theorem length_patchHitsFrom (now : Nat) (hits : List Nat) (s : Nat)
    (ms : List Memory) :
    (patchHitsFrom now hits s ms).length = ms.length := by
  induction ms generalizing s with
  | nil => rfl
  | cons m ms ih => simp [patchHitsFrom, ih]

/-- Lookup in the patched table: position `i` holds the original memory,
bumped exactly when `s + i` is a hit. -/
theorem getElem?_patchHitsFrom (now : Nat) (hits : List Nat) (s i : Nat)
    (ms : List Memory) :
    (patchHitsFrom now hits s ms)[i]? =
      (ms[i]?).map (fun m => if s + i ∈ hits then bumpMemory now m else m) := by
  induction ms generalizing s i with
  | nil => simp [patchHitsFrom]
  | cons m ms ih =>
    cases i with
    | zero => simp [patchHitsFrom]
    | succ j =>
      have heq : s + 1 + j = s + (j + 1) := by omega
      rw [show patchHitsFrom now hits s (m :: ms) =
            (if s ∈ hits then bumpMemory now m else m) ::
              patchHitsFrom now hits (s + 1) ms from rfl,
        List.getElem?_cons_succ, List.getElem?_cons_succ, ih (s + 1) j]
      simp only [heq]

/-- Every memory of the patched table is a memory of the original table,
either unchanged or bumped. -/
theorem mem_patchHitsFrom (now : Nat) (hits : List Nat) (s : Nat)
    (ms : List Memory) (m' : Memory) (h : m' ∈ patchHitsFrom now hits s ms) :
    ∃ m ∈ ms, m' = bumpMemory now m ∨ m' = m := by
  induction ms generalizing s with
  | nil => simp [patchHitsFrom] at h
  | cons m ms ih =>
    simp only [patchHitsFrom, List.mem_cons] at h
    rcases h with h | h
    · by_cases hs : s ∈ hits
      · rw [if_pos hs] at h
        exact ⟨m, List.mem_cons_self m ms, Or.inl h⟩
      · rw [if_neg hs] at h
        exact ⟨m, List.mem_cons_self m ms, Or.inr h⟩
    · obtain ⟨m0, hm0, hor⟩ := ih (s + 1) h
      exact ⟨m0, List.mem_cons_of_mem m hm0, hor⟩

/-! ## C9: retrieval bumps access statistics, preserves the rest -/

/-- C9: whenever `memories/searchByUser` returns a memory (id `i`, fetched
document `m`), the table then and there held `m` at `i`, and after the call
the table holds at `i` a memory with `accessedCount` incremented by exactly
1 and `lastAccessed` set to the call's time, with importance, type and
content unchanged — so a memory appended with importance 0.9 keeps it across
any number of retrievals. -/
theorem searchByUser_bumps (db : DB) (now userId : Nat) (limit : Option Nat)
    (i : Nat) (m : Memory)
    (hret : (i, m) ∈ (searchByUser db now userId limit).1) :
    db.memories[i]? = some m ∧
    ∃ m', (searchByUser db now userId limit).2.memories[i]? = some m' ∧
      m'.accessedCount = m.accessedCount + 1 ∧
      m'.lastAccessed = now ∧
      m'.importance = m.importance ∧
      m'.type = m.type ∧
      m'.content = m.content := by
  have henum : (i, m) ∈ db.memories.enum := by
    have h1 := List.take_subset _ _ hret
    have h2 := List.mem_reverse.1 h1
    exact (List.mem_filter.1 h2).1
  have hget : db.memories[i]? = some m := List.mem_enum_iff_getElem?.1 henum
  refine ⟨hget, ?_⟩
  have hhit : i ∈ ((searchByUser db now userId limit).1).map (·.1) :=
    List.mem_map_of_mem (·.1) hret
  have hdb2 : (searchByUser db now userId limit).2.memories =
      patchHits now (((searchByUser db now userId limit).1).map (·.1)) db.memories := rfl
  refine ⟨bumpMemory now m, ?_, rfl, rfl, rfl, rfl, rfl⟩
  rw [hdb2, patchHits, getElem?_patchHitsFrom, hget]
  simp [hhit]

/-- C9 witness: the goal memory stored with importance 0.9 is returned by a
retrieval, which leaves importance 0.9 and sets `accessedCount` to 1 and
`lastAccessed` to the retrieval time. -/
theorem searchByUser_bumps_witness :
    (searchByUser dbOneGoal 6 7 (some 10)).2.memories[0]?.map
      (fun m => (m.importance, m.accessedCount, m.lastAccessed, m.type, m.content)) =
      some (9/10, 1, 6, "goal", "learn lean") := by
  have hres : (searchByUser dbOneGoal 6 7 (some 10)).1 = [(0, memGoal)] := rfl
  obtain ⟨-, m', hm', hc, hl, hi, ht, hco⟩ :=
    searchByUser_bumps dbOneGoal 6 7 (some 10) 0 memGoal
      (by rw [hres]; exact List.mem_singleton.mpr rfl)
  rw [hm']
  simp [hc, hl, hi, ht, hco, memGoal]

/-! ## C5: the history fetch keeps the oldest, not the most recent -/

/-- C5, evaluated at the failing input: conversation 0 of `dbThreeMsgs`
holds 3 messages and the fetch with limit 2 returns the two OLDEST
(`msgOld`, `msgMid`), omitting the most recent message `msgNew` — the
ascending index order followed by `take` keeps the head of the conversation,
contradicting the claimed "limit most recent". -/
theorem listByConversation_keeps_oldest :
    listByConversation dbThreeMsgs 0 (some 2) = [msgOld, msgMid] ∧
    msgNew ∉ listByConversation dbThreeMsgs 0 (some 2) := by
  decide

/-! ## C1: the code-change short circuit -/

/-- C1: an utterance matching a code-change keyword is detected; the turn
then persists exactly one Code Change Request, makes no model-backend call,
extracts no memory, and returns a `code_change_request` result (so never
also a normal response). -/
theorem chat_codeChange_shortCircuit (env : ChatEnv) (db : DB) (args : ChatArgs)
    (hmatch : ∃ k ∈ codeChangeKeywords, includesSub (strLower args.message) k = true) :
    (detectCodeChangeRequest args.message).detected = true ∧
    (∃ msg rid, (chat env db args).result = .ok (.codeChangeRequest msg rid)) ∧
    (chat env db args).db.codeChangeRequests.length =
      db.codeChangeRequests.length + 1 ∧
    (chat env db args).events.count .createCodeChangeRequest = 1 ∧
    (∀ n, Event.modelCall n ∉ (chat env db args).events) ∧
    Event.storeMemory ∉ (chat env db args).events ∧
    (chat env db args).db.memories.length = db.memories.length := by
  have hdet : (detectCodeChangeRequest args.message).detected = true := by
    have hany : codeChangeKeywords.any
        (fun k => includesSub (strLower args.message) k) = true :=
      List.any_eq_true.2 hmatch
    simp [detectCodeChangeRequest, hany]
  refine ⟨hdet, ?_, ?_, ?_, ?_, ?_, ?_⟩ <;>
  cases hcid : args.conversationId <;>
  cases hctx : (analyzeIntent args.message).requiresPARAContext <;>
  simp [chat, hdet, hcid, hctx, conversationsCreate, messagesStore, searchByUser,
    codeChangeRequestsCreate, patchHits, length_patchHitsFrom, List.count_append]

/-- C1 witness: the feature-request turn persists one Code Change Request,
returns the short-circuit result type, and emits no model call and no
memory store. -/
theorem chat_codeChange_shortCircuit_witness :
    (chat envOk DB.empty argsFeature).db.codeChangeRequests.length = 1 ∧
    (chat envOk DB.empty argsFeature).events.count .createCodeChangeRequest = 1 ∧
    Event.modelCall 1 ∉ (chat envOk DB.empty argsFeature).events ∧
    Event.storeMemory ∉ (chat envOk DB.empty argsFeature).events := by
  obtain ⟨-, -, hlen, hcount, hmc, hsm, -⟩ :=
    chat_codeChange_shortCircuit envOk DB.empty argsFeature
      ⟨"can you", by decide, by decide⟩
  exact ⟨by simpa using hlen, hcount, hmc 1, hsm⟩

/-! ## C4: context gathering versus the code-change check -/

/-- C4 counterexample: on "implement a task" (which contains the PARA
keyword "task" and the code-change keyword "implement") detection is
positive AND the external context provider is invoked — the code gathers
context (Step 5) before running the code-change check (Step 6), so the
claimed detector-before-provider ordering fails. -/
theorem chat_gathers_despite_detection :
    (detectCodeChangeRequest argsImplTask.message).detected = true ∧
    Event.gatherContext ∈ (chat envOk DB.empty argsImplTask).events := by
  constructor
  · decide
  · decide

/-- Trace shape of any turn: an optional conversation creation, the user
message store, the two fetches, the context gather exactly when the
classifier requires it, then a branch-dependent tail which is exactly the
Code Change Request creation when detection is positive and which never
contains a gather. -/
theorem chat_events_shape (env : ChatEnv) (db : DB) (args : ChatArgs) :
    ∃ tail, (chat env db args).events =
      (match args.conversationId with
        | some _ => [] | none => [Event.createConversation]) ++
      [Event.storeMessage "user", Event.queryHistory, Event.queryMemories] ++
      (if (analyzeIntent args.message).requiresPARAContext then [Event.gatherContext]
        else []) ++ tail ∧
      Event.gatherContext ∉ tail ∧
      ((detectCodeChangeRequest args.message).detected = true →
        tail = [Event.createCodeChangeRequest]) ∧
      ((detectCodeChangeRequest args.message).detected = false →
        Event.createCodeChangeRequest ∉ tail) := by
  cases hdet : (detectCodeChangeRequest args.message).detected
  · cases hcid : args.conversationId <;>
    cases hctx : (analyzeIntent args.message).requiresPARAContext <;>
    simp only [chat, hcid, hctx, hdet, Bool.false_eq_true, if_false, if_true] <;>
    split <;>
    refine ⟨_, rfl, ?_, by simp, ?_⟩ <;>
    simp [List.mem_append, List.mem_map, List.mem_replicate]
  · refine ⟨[Event.createCodeChangeRequest], ?_, by simp, fun _ => rfl, by simp [hdet]⟩
    cases hcid : args.conversationId <;>
    cases hctx : (analyzeIntent args.message).requiresPARAContext <;>
    simp [chat, hcid, hctx, hdet]

/-- C4 as amended: the context gather is driven by the classifier alone and
runs before the code-change check — the provider is invoked exactly when
`requiresPARAContext` is set, independently of detection; in a
positive-detection turn the trace ends with the (classifier-dependent)
gather immediately followed by the Code Change Request creation, and no
model-backend call is ever made in such a turn. -/
theorem chat_context_before_codeCheck (env : ChatEnv) (db : DB) (args : ChatArgs) :
    (Event.gatherContext ∈ (chat env db args).events ↔
      (analyzeIntent args.message).requiresPARAContext = true) ∧
    ((detectCodeChangeRequest args.message).detected = true →
      ∃ pre, (chat env db args).events =
          pre ++ (if (analyzeIntent args.message).requiresPARAContext
                  then [Event.gatherContext] else []) ++
            [Event.createCodeChangeRequest] ∧
        Event.gatherContext ∉ pre ∧
        (∀ n, Event.modelCall n ∉ (chat env db args).events)) := by
  obtain ⟨tail, hev, hg, hdet1, -⟩ := chat_events_shape env db args
  constructor
  · rw [hev]
    cases hcid : args.conversationId <;>
    cases hctx : (analyzeIntent args.message).requiresPARAContext <;>
    simp [hcid, hctx, List.mem_append, hg]
  · intro hd
    rw [hdet1 hd] at hev
    refine ⟨(match args.conversationId with
        | some _ => [] | none => [Event.createConversation]) ++
      [Event.storeMessage "user", Event.queryHistory, Event.queryMemories],
      ?_, ?_, ?_⟩
    · rw [hev]
    · cases hcid : args.conversationId <;> simp [hcid]
    · intro n
      rw [hev]
      cases hcid : args.conversationId <;>
      cases hctx : (analyzeIntent args.message).requiresPARAContext <;>
      simp [hcid, hctx, List.mem_append]

/-- C4 amended-claim witness: on the feature-request turn (classifier
requires no context: no PARA keyword) the provider is not invoked, while on
"implement a task" it is — in both cases matching the classifier, not the
detector. -/
theorem chat_context_before_codeCheck_witness :
    Event.gatherContext ∈ (chat envOk DB.empty argsImplTask).events ∧
    Event.gatherContext ∉ (chat envOk DB.empty argsFeature).events :=
  ⟨(chat_context_before_codeCheck envOk DB.empty argsImplTask).1.mpr (by decide),
   fun h => by
    have := (chat_context_before_codeCheck envOk DB.empty argsFeature).1.mp h
    exact absurd this (by decide)⟩

/-! ## C3: exhausted retries end the turn fatally -/

/-- C3: when the model backend fails on all three attempts of a
non-short-circuited turn, the turn fails carrying the last underlying
error; no assistant message is persisted (the turn's only new message is
the already-stored user message, which remains), and no memory extraction
happens. -/
theorem chat_exhausted_retries (env : ChatEnv) (db : DB) (args : ChatArgs)
    (e1 e2 e3 : String)
    (hdet : (detectCodeChangeRequest args.message).detected = false)
    (hfail : ∀ g : GenInput, env.modelResponse g 1 = .error e1 ∧
      env.modelResponse g 2 = .error e2 ∧ env.modelResponse g 3 = .error e3) :
    (chat env db args).result = .error e3 ∧
    (chat env db args).db.memories.length = db.memories.length ∧
    (chat env db args).db.messages.length = db.messages.length + 1 ∧
    (chat env db args).db.messages.getLast?.map (fun m => (m.role, m.content)) =
      some ("user", args.message) ∧
    Event.storeMessage "assistant" ∉ (chat env db args).events ∧
    Event.storeMemory ∉ (chat env db args).events ∧
    (chat env db args).events.count (Event.modelCall 1) = 1 ∧
    (chat env db args).events.count (Event.modelCall 2) = 1 ∧
    (chat env db args).events.count (Event.modelCall 3) = 1 := by
  have hexec : ∀ g : GenInput, executeWithFaultTolerance (env.modelResponse g) =
      { result := .error e3, attempts := 3, waits := [2 ^ 1, 2 ^ 2] } := fun g =>
    executeWithFaultTolerance_allFail (hfail g).1 (hfail g).2.1 (hfail g).2.2
  cases hcid : args.conversationId <;>
  cases hctx : (analyzeIntent args.message).requiresPARAContext <;>
  refine ⟨?_, ?_, ?_, ?_, ?_, ?_, ?_, ?_, ?_⟩ <;>
  simp [chat, hdet, hcid, hctx, hexec, conversationsCreate, messagesStore,
    searchByUser, patchHits, length_patchHitsFrom, List.count_append,
    List.range_succ]

/-- C3 witness: with the always-failing backend, the keyword-free turn
fails with the attempt-3 error, stores exactly the user message, and emits
the three model-call attempts. -/
theorem chat_exhausted_retries_witness :
    (chat envDown DB.empty argsPlain).result = .error "backend unavailable 3" ∧
    (chat envDown DB.empty argsPlain).db.messages.length = 1 ∧
    Event.storeMessage "assistant" ∉ (chat envDown DB.empty argsPlain).events ∧
    Event.storeMemory ∉ (chat envDown DB.empty argsPlain).events := by
  obtain ⟨hres, -, hlen, -, hassist, hmem, -⟩ :=
    chat_exhausted_retries envDown DB.empty argsPlain
      "backend unavailable 1" "backend unavailable 2" "backend unavailable 3"
      (by decide) (fun g => ⟨rfl, rfl, rfl⟩)
  exact ⟨hres, by simpa using hlen, hassist, hmem⟩

/-! ## C8: the importance range invariant -/

/-- Every extraction candidate carries one of the three rule constants. -/
theorem extractMemories_importance_values (u r : String) (c : MemoryCandidate)
    (hc : c ∈ extractMemories u r) :
    c.importance = 8/10 ∨ c.importance = 9/10 ∨ c.importance = 7/10 := by
  simp only [extractMemories, List.mem_append] at hc
  rcases hc with (hc | hc) | hc <;> split at hc <;> simp_all

/-- The `importance || 0.5` defaulting keeps a value of `[0,1]` in `[0,1]`. -/
theorem jsOrRat_some_mem_range (q : ℚ) (h0 : 0 ≤ q) (h1 : q ≤ 1) :
    0 ≤ jsOrRat (some q) (1/2) ∧ jsOrRat (some q) (1/2) ≤ 1 := by
  by_cases hq : q = 0
  · norm_num [jsOrRat, hq]
  · simp [jsOrRat, hq, h0, h1]

/-- Bumping access statistics never moves any importance. -/
theorem memsInRange_patchHitsFrom (now : Nat) (hits : List Nat) (s : Nat)
    (ms : List Memory) (h : memsInRange ms) :
    memsInRange (patchHitsFrom now hits s ms) := by
  intro m' hm'
  obtain ⟨m, hm, hor⟩ := mem_patchHitsFrom now hits s ms m' hm'
  rcases hor with h1 | h1 <;> rw [h1] <;> exact h m hm

/-- The extraction loop of the orchestrator appends exactly the candidate
records, in order. -/
theorem foldl_memoriesStore_memories (now userId : Nat)
    (cs : List MemoryCandidate) (d : DB) :
    (cs.foldl (fun d c =>
        (memoriesStore d now userId c.type c.content none (some c.importance)).1)
      d).memories =
      d.memories ++ cs.map (candidateRecord now userId) := by
  induction cs generalizing d with
  | nil => simp
  | cons c cs ih =>
    rw [List.foldl_cons, List.map_cons, ih]
    simp [memoriesStore, candidateRecord]

/-- Any memory in the table after a turn is an original memory (possibly
access-bumped by the retrieval) or a candidate record extracted from the
exchange — the only writes ever applied to the memories table. -/
theorem chat_db_memories_mem (env : ChatEnv) (db : DB) (args : ChatArgs)
    (m' : Memory) (hm' : m' ∈ (chat env db args).db.memories) :
    (∃ m ∈ db.memories, m' = bumpMemory env.now m ∨ m' = m) ∨
    (∃ content c, c ∈ extractMemories args.message content ∧
      m' = candidateRecord env.now args.userId c) := by
  cases hdet : (detectCodeChangeRequest args.message).detected <;>
  cases hcid : args.conversationId <;>
  cases hctx : (analyzeIntent args.message).requiresPARAContext <;>
  simp only [chat, hcid, hctx, hdet, Bool.false_eq_true, if_false, if_true,
    conversationsCreate, messagesStore, searchByUser, codeChangeRequestsCreate,
    conversationsUpdateActivity] at hm' <;>
  first
    | exact Or.inl (mem_patchHitsFrom _ _ _ _ _ hm')
    | (split at hm'
       · exact Or.inl (mem_patchHitsFrom _ _ _ _ _ hm')
       · rename_i content heq
         rw [foldl_memoriesStore_memories] at hm'
         rcases List.mem_append.1 hm' with hm' | hm'
         · exact Or.inl (mem_patchHitsFrom _ _ _ _ _ hm')
         · obtain ⟨c, hc, rfl⟩ := List.mem_map.1 hm'
           exact Or.inr ⟨content, c, hc, rfl⟩)

/-- C8 counterexample: `memories/store` validates nothing — a call with
importance 2 (accepted by its `v.number()` interface) persists importance
2, outside `[0,1]`. -/
theorem memoriesStore_accepts_out_of_range :
    (memoriesStore DB.empty 0 1 "fact" "x" none (some 2)).1.memories.map
        (·.importance) = [2] ∧
      ¬ ImportanceInRange (memoriesStore DB.empty 0 1 "fact" "x" none (some 2)).1 := by
  have hmap : (memoriesStore DB.empty 0 1 "fact" "x" none (some 2)).1.memories.map
      (·.importance) = [2] := by
    norm_num [memoriesStore, DB.empty, jsOrRat]
  refine ⟨hmap, fun h => ?_⟩
  have h2 : (2 : ℚ) ∈ (memoriesStore DB.empty 0 1 "fact" "x" none (some 2)).1.memories.map
      (·.importance) := by
    rw [hmap]
    exact List.mem_singleton.mpr rfl
  obtain ⟨m, hm, him⟩ := List.mem_map.1 h2
  have hle := (h m hm).2
  rw [him] at hle
  norm_num at hle

/-- C8 as amended: the core's own writes keep every importance in `[0,1]` —
each extraction candidate's importance is in `[0,1]`, and a turn (which only
appends candidate records and bumps access statistics) preserves the
invariant that all persisted memories have importance in `[0,1]` — but
`memories/store` itself does not enforce the range, so a direct caller can
persist an out-of-range importance (see the counterexample). -/
theorem chat_importance_invariant :
    (∀ u r, ∀ c ∈ extractMemories u r, 0 ≤ c.importance ∧ c.importance ≤ 1) ∧
    (∀ (env : ChatEnv) (db : DB) (args : ChatArgs),
      ImportanceInRange db → ImportanceInRange (chat env db args).db) := by
  have hcand : ∀ u r, ∀ c ∈ extractMemories u r,
      0 ≤ c.importance ∧ c.importance ≤ 1 := by
    intro u r c hc
    rcases extractMemories_importance_values u r c hc with h | h | h <;>
      rw [h] <;> norm_num
  refine ⟨hcand, ?_⟩
  intro env db args hinv m' hm'
  rcases chat_db_memories_mem env db args m' hm' with
    ⟨m, hm, h1 | h1⟩ | ⟨content, c, hc, rfl⟩
  · rw [h1]
    exact hinv m hm
  · rw [h1]
    exact hinv m hm
  · have hr := hcand args.message content c hc
    exact jsOrRat_some_mem_range c.importance hr.1 hr.2

/-- C8 witness: a turn that extracts a preference leaves a database all of
whose memories (here the new 0.8-importance preference) are in `[0,1]`. -/
theorem chat_importance_invariant_witness :
    ImportanceInRange (chat envOk DB.empty argsPrefer).db :=
  chat_importance_invariant.2 envOk DB.empty argsPrefer
    (fun m hm => absurd hm (List.not_mem_nil m))

end Managua
